import Mathlib

/-!
Verification of the task filtering/sorting/mutation contract of the TODO-list
web application (client `scripts/todoManager.js`, `scripts/storage.js`, and the
server routes in `server/routes` over `server/models/Todo.js`).

The client's Query Engine (`TodoManager.getFilteredTodos` /
`TodoManager.getSortFunction`) is embedded over a `Task` record; JavaScript's
`Array.prototype.sort` (stable, sorted w.r.t. the comparator) is modelled by
`List.mergeSort` with the relation `comparator a b ≤ 0`.  The Manager's
validation pipeline (`addTodo` / `updateTodo` / `validatePriority` /
`validateDate`) is embedded over raw inputs whose optional fields are `Option`s
(`none` = JavaScript `undefined`).  The server routes are embedded as functions
from a list of stored documents to a response and a new list.
-/

namespace TodoApp

/-- A task record as consumed by the client Query Engine
(`getFilteredTodos` / `getSortFunction` in `scripts/todoManager.js`).
`dueDate` is modelled as the due date's time value, i.e. the number
`new Date(t.dueDate).getTime()` the comparator actually compares
(`none` when the task has no due date); `createdAt` likewise is the
creation time value.  `priority` is one of the three values that
`validatePriority` lets into storage. -/
structure Task where
  id : Nat
  text : String
  completed : Bool
  priority : String
  dueDate : Option Int
  createdAt : Int
deriving DecidableEq, Repr

/-- Model of `const priorityOrder = { high: 3, medium: 2, low: 1 }` in
`getSortFunction`.  Stored priorities are always one of the three keys
(see `validatePriority`); the fallback value is never reached on stored
tasks. -/
def priorityOrder (p : String) : Int :=
  if p = "high" then 3 else if p = "medium" then 2 else if p = "low" then 1 else 0

/-- The `'created'` comparator: `(a, b) => new Date(b.createdAt) - new Date(a.createdAt)`. -/
def cmpCreated (a b : Task) : Int :=
  b.createdAt - a.createdAt

/-- The `'priority'` comparator: descending priority rank, ties broken by
descending `createdAt`. -/
def cmpPriority (a b : Task) : Int :=
  let priorityDiff := priorityOrder b.priority - priorityOrder a.priority
  if priorityDiff ≠ 0 then priorityDiff else cmpCreated a b

/-- The `'dueDate'` comparator: tasks without a due date compare after tasks
with one; two dated tasks compare by `new Date(a.dueDate) - new Date(b.dueDate)`. -/
def cmpDueDate (a b : Task) : Int :=
  match a.dueDate, b.dueDate with
  | none, none => 0
  | none, some _ => 1
  | some _, none => -1
  | some x, some y => x - y

/-- The `'alphabetical'` comparator:
`a.text.toLowerCase().localeCompare(b.text.toLowerCase())`, modelled as the
three-valued comparison of the lower-cased texts. -/
def cmpAlphabetical (a b : Task) : Int :=
  if a.text.toLower < b.text.toLower then -1
  else if a.text.toLower = b.text.toLower then 0
  else 1

/-- Model of `TodoManager.getSortFunction(sortBy)`: `'created'` and any unrecognized
value share the default branch. -/
def getSortFunction (sortBy : String) : Task → Task → Int :=
  match sortBy with
  | "priority" => cmpPriority
  | "dueDate" => cmpDueDate
  | "alphabetical" => cmpAlphabetical
  | _ => cmpCreated

/-- The boolean relation under which JavaScript's stable `Array.prototype.sort`
orders the list: `a` may precede `b` iff the comparator does not require the
pair to be exchanged. -/
def sortLE (sortBy : String) (a b : Task) : Bool :=
  getSortFunction sortBy a b ≤ 0

/-- Model of `filteredTodos.sort(this.getSortFunction(sortBy))`: a stable sort w.r.t.
the comparator, modelled by `List.mergeSort`. -/
def sortTodos (sortBy : String) (todos : List Task) : List Task :=
  todos.mergeSort (sortLE sortBy)

/-- The filter `switch` of `TodoManager.getFilteredTodos`: `'active'` keeps
uncompleted tasks, `'completed'` keeps completed ones, `'all'` and the
`default` branch keep everything. -/
def applyFilter (filter : String) (todos : List Task) : List Task :=
  match filter with
  | "active" => todos.filter (fun todo => !todo.completed)
  | "completed" => todos.filter (fun todo => todo.completed)
  | _ => todos

/-- Model of `TodoManager.getFilteredTodos` as a pure function of
(tasks, filter, sortBy): copy, filter, then sort. -/
def getFilteredTodos (filter sortBy : String) (todos : List Task) : List Task :=
  sortTodos sortBy (applyFilter filter todos)

/-- The filter values accepted by `TodoManager.setFilter`. -/
def validFilters : List String := ["all", "active", "completed"]

/-- The validation at the head of `TodoManager.setFilter`: an invalid filter
value throws; a valid one is installed. -/
def setFilter (filter : String) : Except String String :=
  if validFilters.contains filter then Except.ok filter
  else Except.error ("Invalid filter: " ++ filter)

/-! ### Order-theoretic facts about the comparators

JavaScript's `Array.prototype.sort` produces a list ordered by the comparator
and stable, provided the comparator is consistent; the lemmas below establish
that each of the four comparators induces a total preorder, so that the
`List.mergeSort` model enjoys `List.sorted_mergeSort` and the stability
lemmas. -/

theorem sortLE_iff (s : String) (a b : Task) :
    sortLE s a b = true ↔ getSortFunction s a b ≤ 0 := by
  simp [sortLE]

theorem getSortFunction_cases (s : String) :
    getSortFunction s = cmpPriority ∨ getSortFunction s = cmpDueDate ∨
    getSortFunction s = cmpAlphabetical ∨ getSortFunction s = cmpCreated := by
  unfold getSortFunction
  split
  · exact Or.inl rfl
  · exact Or.inr (Or.inl rfl)
  · exact Or.inr (Or.inr (Or.inl rfl))
  · exact Or.inr (Or.inr (Or.inr rfl))

theorem cmpCreated_le_trans {a b c : Task} :
    cmpCreated a b ≤ 0 → cmpCreated b c ≤ 0 → cmpCreated a c ≤ 0 := by
  unfold cmpCreated; omega

theorem cmpCreated_le_total (a b : Task) :
    cmpCreated a b ≤ 0 ∨ cmpCreated b a ≤ 0 := by
  unfold cmpCreated; omega

theorem cmpPriority_le_trans {a b c : Task} :
    cmpPriority a b ≤ 0 → cmpPriority b c ≤ 0 → cmpPriority a c ≤ 0 := by
  intro h1 h2
  simp only [cmpPriority, cmpCreated] at h1 h2 ⊢
  split at h1 <;> split at h2 <;> split <;> omega

theorem cmpPriority_le_total (a b : Task) :
    cmpPriority a b ≤ 0 ∨ cmpPriority b a ≤ 0 := by
  simp only [cmpPriority, cmpCreated]
  split <;> split <;> omega

theorem cmpDueDate_le_trans {a b c : Task} :
    cmpDueDate a b ≤ 0 → cmpDueDate b c ≤ 0 → cmpDueDate a c ≤ 0 := by
  intro h1 h2
  obtain ⟨_, _, _, _, da, _⟩ := a
  obtain ⟨_, _, _, _, db, _⟩ := b
  obtain ⟨_, _, _, _, dc, _⟩ := c
  rcases da with _ | x <;> rcases db with _ | y <;> rcases dc with _ | z <;>
    simp only [cmpDueDate] at h1 h2 ⊢ <;> omega

theorem cmpDueDate_le_total (a b : Task) :
    cmpDueDate a b ≤ 0 ∨ cmpDueDate b a ≤ 0 := by
  obtain ⟨_, _, _, _, da, _⟩ := a
  obtain ⟨_, _, _, _, db, _⟩ := b
  rcases da with _ | x <;> rcases db with _ | y <;>
    simp only [cmpDueDate] <;> omega

theorem cmpAlphabetical_le_iff (a b : Task) :
    cmpAlphabetical a b ≤ 0 ↔ a.text.toLower ≤ b.text.toLower := by
  unfold cmpAlphabetical
  rcases lt_trichotomy a.text.toLower b.text.toLower with h | h | h
  · rw [if_pos h]
    exact iff_of_true (by norm_num) (le_of_lt h)
  · rw [if_neg (h ▸ lt_irrefl _), if_pos h]
    exact iff_of_true le_rfl (le_of_eq h)
  · rw [if_neg (not_lt_of_gt h), if_neg (ne_of_gt h)]
    exact iff_of_false (by norm_num) (not_le_of_gt h)

theorem cmpAlphabetical_le_trans {a b c : Task} :
    cmpAlphabetical a b ≤ 0 → cmpAlphabetical b c ≤ 0 → cmpAlphabetical a c ≤ 0 := by
  intro h1 h2
  exact (cmpAlphabetical_le_iff a c).2
    (le_trans ((cmpAlphabetical_le_iff a b).1 h1) ((cmpAlphabetical_le_iff b c).1 h2))

theorem cmpAlphabetical_le_total (a b : Task) :
    cmpAlphabetical a b ≤ 0 ∨ cmpAlphabetical b a ≤ 0 := by
  rw [cmpAlphabetical_le_iff, cmpAlphabetical_le_iff]
  exact le_total _ _

theorem sortLE_trans (S : String) :
    ∀ a b c : Task, sortLE S a b → sortLE S b c → sortLE S a c := by
  intro a b c h1 h2
  rw [sortLE_iff] at h1 h2 ⊢
  rcases getSortFunction_cases S with h | h | h | h <;> rw [h] at h1 h2 ⊢
  · exact cmpPriority_le_trans h1 h2
  · exact cmpDueDate_le_trans h1 h2
  · exact cmpAlphabetical_le_trans h1 h2
  · exact cmpCreated_le_trans h1 h2

theorem sortLE_total (S : String) :
    ∀ a b : Task, sortLE S a b || sortLE S b a := by
  intro a b
  rw [Bool.or_eq_true, sortLE_iff, sortLE_iff]
  rcases getSortFunction_cases S with h | h | h | h <;> rw [h]
  · exact cmpPriority_le_total a b
  · exact cmpDueDate_le_total a b
  · exact cmpAlphabetical_le_total a b
  · exact cmpCreated_le_total a b

/-- Case analysis on the filter `switch`: `'active'` and `'completed'` filter,
everything else (including `'all'`) is the identity. -/
theorem applyFilter_spec (F : String) :
    (F = "active" ∧ ∀ l : List Task, applyFilter F l = l.filter fun t => !t.completed)
    ∨ (F = "completed" ∧ ∀ l : List Task, applyFilter F l = l.filter fun t => t.completed)
    ∨ (∀ l : List Task, applyFilter F l = l) := by
  by_cases h1 : F = "active"
  · subst h1; exact Or.inl ⟨rfl, fun l => rfl⟩
  by_cases h2 : F = "completed"
  · subst h2; exact Or.inr (Or.inl ⟨rfl, fun l => rfl⟩)
  refine Or.inr (Or.inr fun l => ?_)
  unfold applyFilter
  split
  · contradiction
  · contradiction
  · rfl

/-- Sample task used in counterexamples and witnesses. -/
def taskBuyMilk : Task :=
  { id := 1, text := "Buy milk", completed := false, priority := "high",
    dueDate := none, createdAt := 10 }

/-- Sample completed task used in counterexamples and witnesses. -/
def taskWalkDog : Task :=
  { id := 2, text := "Walk dog", completed := true, priority := "medium",
    dueDate := some 5, createdAt := 3 }

/-- C1: for every task list `T` and sort mode `S`, every task returned under
filter `active` has `completed == false`, every task returned under filter
`completed` has `completed == true`, and under filter `all` the output is a
permutation of `T` (exactly the tasks of `T`, reordered by the sort). -/
theorem view_matches_filter (T : List Task) (S : String) :
    (∀ t ∈ getFilteredTodos "active" S T, t.completed = false)
    ∧ (∀ t ∈ getFilteredTodos "completed" S T, t.completed = true)
    ∧ (getFilteredTodos "all" S T).Perm T := by
  refine ⟨?_, ?_, ?_⟩
  · intro t ht
    have h1 : t ∈ (T.filter fun t => !t.completed).mergeSort (sortLE S) := ht
    have h2 := (List.mem_filter.mp (List.mem_mergeSort.mp h1)).2
    simpa using h2
  · intro t ht
    have h1 : t ∈ (T.filter fun t => t.completed).mergeSort (sortLE S) := ht
    exact (List.mem_filter.mp (List.mem_mergeSort.mp h1)).2
  · exact List.mergeSort_perm T _

/-- C1 witness at a concrete instance: `taskBuyMilk` is returned by
`view([taskBuyMilk, taskWalkDog], "active", "created")` and indeed has
`completed == false`. -/
theorem view_matches_filter_witness : taskBuyMilk.completed = false :=
  (view_matches_filter [taskBuyMilk, taskWalkDog] "created").1 taskBuyMilk
    (by show taskBuyMilk ∈ List.mergeSort _ _; rw [List.mem_mergeSort]; decide)

/-- C5: `view` is idempotent — filtering a second time removes nothing (every
returned task already satisfies the filter), and re-sorting an already sorted
list with the stable sort leaves it unchanged. -/
theorem view_idempotent (T : List Task) (F S : String) :
    getFilteredTodos F S (getFilteredTodos F S T) = getFilteredTodos F S T := by
  have key : ∀ p : Task → Bool, (∀ l, applyFilter F l = l.filter p) →
      getFilteredTodos F S (getFilteredTodos F S T) = getFilteredTodos F S T := by
    intro p hp
    unfold getFilteredTodos sortTodos
    simp only [hp]
    rw [List.filter_eq_self.mpr fun t ht => (List.mem_filter.mp (List.mem_mergeSort.mp ht)).2]
    exact List.mergeSort_of_sorted (List.sorted_mergeSort (sortLE_trans S) (sortLE_total S) _)
  rcases applyFilter_spec F with ⟨_, h⟩ | ⟨_, h⟩ | h
  · exact key _ h
  · exact key _ h
  · unfold getFilteredTodos sortTodos
    simp only [h]
    exact List.mergeSort_of_sorted (List.sorted_mergeSort (sortLE_trans S) (sortLE_total S) _)

/-- C2: sorting with sort mode `dueDate` yields a list in which
(i) pairwise, a dated task never exceeds a later dated task and a no-date task
never precedes a dated one (so dated tasks are ascending and all no-date tasks
come after all dated tasks), (ii) the no-date tasks keep their stable relative
input order, and (iii) the output is a permutation of the input. -/
theorem dueDate_sort_spec (l : List Task) :
    ((sortTodos "dueDate" l).Pairwise fun a b =>
        match a.dueDate, b.dueDate with
        | some x, some y => x ≤ y
        | none, some _ => False
        | _, _ => True)
    ∧ ((sortTodos "dueDate" l).filter fun t => t.dueDate.isNone)
        = (l.filter fun t => t.dueDate.isNone)
    ∧ (sortTodos "dueDate" l).Perm l := by
  refine ⟨?_, ?_, List.mergeSort_perm l _⟩
  · have hs : (sortTodos "dueDate" l).Pairwise (fun a b => sortLE "dueDate" a b = true) :=
      List.sorted_mergeSort (sortLE_trans _) (sortLE_total _) l
    refine hs.imp ?_
    intro a b hab
    rw [sortLE_iff] at hab
    have hab' : cmpDueDate a b ≤ 0 := hab
    obtain ⟨_, _, _, _, da, _⟩ := a
    obtain ⟨_, _, _, _, db, _⟩ := b
    rcases da with _ | x <;> rcases db with _ | y <;>
      simp only [cmpDueDate] at hab' ⊢ <;> omega
  · have hcpair : (l.filter fun t => t.dueDate.isNone).Pairwise
        (fun a b => sortLE "dueDate" a b = true) := by
      apply List.pairwise_of_forall_mem_list
      intro a ha b hb
      have ha2 : a.dueDate = none :=
        Option.isNone_iff_eq_none.mp (List.mem_filter.mp ha).2
      have hb2 : b.dueDate = none :=
        Option.isNone_iff_eq_none.mp (List.mem_filter.mp hb).2
      rw [sortLE_iff]
      show cmpDueDate a b ≤ 0
      unfold cmpDueDate
      rw [ha2, hb2]
    have hsub : List.Sublist (l.filter fun t => t.dueDate.isNone) (sortTodos "dueDate" l) :=
      List.sublist_mergeSort (sortLE_trans _) (sortLE_total _) hcpair (List.filter_sublist l)
    have hsub2 : List.Sublist (l.filter fun t => t.dueDate.isNone)
        ((sortTodos "dueDate" l).filter fun t => t.dueDate.isNone) := by
      have h1 := hsub.filter (fun t => t.dueDate.isNone)
      rwa [List.filter_eq_self.mpr fun a ha => (List.mem_filter.mp ha).2] at h1
    have hperm : ((sortTodos "dueDate" l).filter fun t => t.dueDate.isNone).Perm
        (l.filter fun t => t.dueDate.isNone) :=
      (List.mergeSort_perm l _).filter _
    exact (hsub2.eq_of_length hperm.length_eq.symm).symm

/-- C4 counterexample: `view` with the unrecognized filter value `"bogus"` does
not fail — it returns all tasks of the input list (the `default` branch of the
filter `switch` keeps everything), contradicting the claim that an unrecognized
filter fails with `InvalidArgument` and does not fall back to all tasks. -/
theorem view_unknown_filter_counterexample :
    getFilteredTodos "bogus" "created" [taskBuyMilk, taskWalkDog]
      = [taskBuyMilk, taskWalkDog] := by
  show List.mergeSort _ _ = _
  apply List.mergeSort_of_sorted
  decide

/-- C4 amended: for every filter value outside {all, active, completed},
`getFilteredTodos` falls back to the behaviour of filter `all` (it returns all
tasks, sorted); only `setFilter` rejects such a value with an error. -/
theorem view_unknown_filter_fallback (T : List Task) (S F : String)
    (h : validFilters.contains F = false) :
    getFilteredTodos F S T = getFilteredTodos "all" S T
    ∧ ∃ msg, setFilter F = Except.error msg := by
  constructor
  · have h1 : F ≠ "active" := fun e => by subst e; exact absurd h (by decide)
    have h2 : F ≠ "completed" := fun e => by subst e; exact absurd h (by decide)
    rcases applyFilter_spec F with ⟨he, _⟩ | ⟨he, _⟩ | hid
    · exact absurd he h1
    · exact absurd he h2
    · unfold getFilteredTodos
      rw [hid T]
      rfl
  · have hc : ¬ (validFilters.contains F = true) := by rw [h]; exact Bool.false_ne_true
    exact ⟨"Invalid filter: " ++ F, by unfold setFilter; rw [if_neg hc]⟩

/-- C4 amended witness: at `F = "bogus"` the fallback equation and the
`setFilter` rejection both hold. -/
theorem view_unknown_filter_fallback_witness :
    getFilteredTodos "bogus" "created" [taskBuyMilk]
      = getFilteredTodos "all" "created" [taskBuyMilk]
    ∧ ∃ msg, setFilter "bogus" = Except.error msg :=
  view_unknown_filter_fallback [taskBuyMilk] "created" "bogus" (by decide)

/-! ### The client Manager's mutation/validation pipeline

`TodoManager.addTodo` / `updateTodo` and their helpers `validatePriority` and
`validateDate` from `scripts/todoManager.js`, over raw JavaScript inputs whose
optional fields are `Option`s (`none` = the field is absent/`undefined`). -/

/-- Model of `const validPriorities = ['high', 'medium', 'low']` in `validatePriority`. -/
def validPriorities : List String := ["high", "medium", "low"]

/-- Model of `TodoManager.validatePriority`: a missing or invalid priority silently
normalizes to `'medium'`.  (JavaScript's `!priority` also catches the empty
string, which the `includes` check rejects as well.) -/
def validatePriority : Option String → String
  | none => "medium"
  | some p => if validPriorities.contains p then p else "medium"

/-- The regex `^\d{4}-\d{2}-\d{2}$` tested by `TodoManager.validateDate`. -/
def isDateFormat (s : String) : Bool :=
  match s.toList with
  | [y1, y2, y3, y4, '-', m1, m2, '-', d1, d2] =>
      y1.isDigit && y2.isDigit && y3.isDigit && y4.isDigit &&
      m1.isDigit && m2.isDigit && d1.isDigit && d2.isDigit
  | _ => false

/-- Number of days in a Gregorian month (month `1`..`12`). -/
def daysInMonth (y m : Nat) : Nat :=
  if m = 1 ∨ m = 3 ∨ m = 5 ∨ m = 7 ∨ m = 8 ∨ m = 10 ∨ m = 12 then 31
  else if m = 4 ∨ m = 6 ∨ m = 9 ∨ m = 11 then 30
  else if (y % 4 = 0 ∧ y % 100 ≠ 0) ∨ y % 400 = 0 then 29
  else 28

/-- Digits-to-number helper for reading the fixed-width fields of a
`YYYY-MM-DD` string. -/
def toNatDigits (cs : List Char) : Nat :=
  cs.foldl (fun n c => 10 * n + (c.toNat - 48)) 0

/-- Model of `!isNaN(new Date(s).getTime())` for a string matching the `YYYY-MM-DD`
regex: ECMAScript's ISO date parser yields an invalid date exactly when the
month or day field is out of range. -/
def jsDateValid (s : String) : Bool :=
  match s.toList with
  | [y1, y2, y3, y4, '-', m1, m2, '-', d1, d2] =>
      let y := toNatDigits [y1, y2, y3, y4]
      let m := toNatDigits [m1, m2]
      let d := toNatDigits [d1, d2]
      1 ≤ m && m ≤ 12 && 1 ≤ d && d ≤ daysInMonth y m
  | _ => false

/-- Model of `TodoManager.validateDate`: falsy input → `null`; a string not matching
`^\d{4}-\d{2}-\d{2}$` → `null`; a matching string that parses to an invalid
date → `null`; otherwise the original string. -/
def validateDate (date : Option String) : Option String :=
  match date with
  | none => none
  | some s =>
    if s = "" then none
    else if !isDateFormat s then none
    else if !jsDateValid s then none
    else some s

/-- A todo record in the client Manager's mirror (`this.todos`), restricted to
the fields the verified operations read or write; `dueDate` is the stored
date string. -/
structure CTodo where
  id : Nat
  text : String
  priority : String
  dueDate : Option String
  completed : Bool
deriving DecidableEq, Repr

/-- The raw `todoData` argument of `TodoManager.addTodo`. -/
structure TodoData where
  text : Option String
  priority : Option String
  dueDate : Option String
deriving Repr

/-- The `cleanTodoData` record built by `TodoManager.addTodo`. -/
structure CleanTodoData where
  text : String
  priority : String
  dueDate : Option String
deriving DecidableEq, Repr

/-- JavaScript's `String.prototype.trim` (strip leading and trailing
whitespace), modelled over the character list so that it evaluates in the
kernel. -/
def jsTrim (s : String) : String :=
  String.mk (((s.data.dropWhile Char.isWhitespace).reverse.dropWhile
    Char.isWhitespace).reverse)

/-- The validation head of `TodoManager.addTodo`: missing, non-string, empty
or whitespace-only `text` throws; otherwise the cleaned creation payload is
built from `validatePriority` and `validateDate`. -/
def addTodoValidate (todoData : TodoData) : Except String CleanTodoData :=
  match todoData.text with
  | none => Except.error "Todo text is required and must be a non-empty string"
  | some s =>
    if jsTrim s = "" then
      Except.error "Todo text is required and must be a non-empty string"
    else
      Except.ok { text := jsTrim s, priority := validatePriority todoData.priority,
                  dueDate := validateDate todoData.dueDate }

/-- Model of `TodoManager.addTodo` over the mirror: a validation failure propagates the
thrown error before any storage call (no task is created); on success the
store appends a task with the cleaned fields and `completed = false`
(the server-assigned id is abstracted as `newId`). -/
def addTodo (todos : List CTodo) (newId : Nat) (todoData : TodoData) :
    Except String (CTodo × List CTodo) :=
  match addTodoValidate todoData with
  | Except.error e => Except.error e
  | Except.ok clean =>
    let newTodo : CTodo := { id := newId, text := clean.text, priority := clean.priority,
                             dueDate := clean.dueDate, completed := false }
    Except.ok (newTodo, todos ++ [newTodo])

/-- The partial `updates` argument of `TodoManager.updateTodo`; `none` = the
field is absent (`undefined`). -/
structure UpdateData where
  text : Option String
  priority : Option String
  dueDate : Option String
  completed : Option Bool
deriving Repr

/-- The `validUpdates` record built by `TodoManager.updateTodo`; `dueDate` is
doubly optional because a present-but-invalid date is normalized to `null`. -/
structure ValidUpdates where
  text : Option String
  priority : Option String
  dueDate : Option (Option String)
  completed : Option Bool
deriving DecidableEq, Repr

/-- The validation body of `TodoManager.updateTodo`: a present empty or
whitespace-only `text` throws; a present `priority` or `dueDate` is silently
normalized (never rejected); a present `completed` is coerced to boolean. -/
def updateTodoValidate (updates : UpdateData) : Except String ValidUpdates :=
  let rest : ValidUpdates :=
    { text := none,
      priority := updates.priority.map fun p => validatePriority (some p),
      dueDate := updates.dueDate.map fun d => validateDate (some d),
      completed := updates.completed }
  match updates.text with
  | none => Except.ok rest
  | some s =>
    if jsTrim s = "" then Except.error "Todo text must be a non-empty string"
    else Except.ok { rest with text := some (jsTrim s) }

/-- The storage layer's `{ ...todos[i], ...updates }` merge applying
`validUpdates` to the stored todo. -/
def applyUpdates (t : CTodo) (v : ValidUpdates) : CTodo :=
  { t with
    text := v.text.getD t.text
    priority := v.priority.getD t.priority
    dueDate := match v.dueDate with | none => t.dueDate | some d => d
    completed := v.completed.getD t.completed }

/-- Model of `TodoManager.updateTodo` acting on one stored task: validate the partial
update, then merge it into the task. -/
def updateTodo (t : CTodo) (updates : UpdateData) : Except String CTodo :=
  match updateTodoValidate updates with
  | Except.error e => Except.error e
  | Except.ok v => Except.ok (applyUpdates t v)

/-- The `{ all, active, completed }` record of `TodoManager.getTodoCounts`. -/
structure TodoCounts where
  all : Nat
  active : Nat
  completed : Nat
deriving DecidableEq, Repr

/-- Model of `TodoManager.getTodoCounts`: `all` is the mirror's length, `completed`
counts completed todos, `active` is the difference. -/
def getTodoCounts (todos : List CTodo) : TodoCounts :=
  let all := todos.length
  let completed := (todos.filter fun todo => todo.completed).length
  let active := all - completed
  { all := all, active := active, completed := completed }

/-- C3 counterexample: in the client Manager, updating an existing owned task
with the invalid priority `"urgent"` does NOT fail with a validation error —
`validatePriority` silently normalizes it to `"medium"` and the update is
applied, so the task is modified (its priority changes from `"high"` to
`"medium"`). -/
theorem update_invalid_priority_counterexample :
    updateTodo
        { id := 1, text := "Buy milk", priority := "high", dueDate := none, completed := false }
        { text := none, priority := some "urgent", dueDate := none, completed := none }
      = Except.ok
        { id := 1, text := "Buy milk", priority := "medium", dueDate := none, completed := false }
    ∧ ("medium" : String) ≠ "high" := by
  exact ⟨rfl, by decide⟩

/-- C8: `addTodo` with absent, empty, or whitespace-only `text` fails with the
validation error before any storage call, so no task is created. -/
theorem add_empty_text_fails (todos : List CTodo) (newId : Nat) (todoData : TodoData)
    (h : todoData.text = none ∨ ∃ s, todoData.text = some s ∧ jsTrim s = "") :
    addTodo todos newId todoData
      = Except.error "Todo text is required and must be a non-empty string" := by
  unfold addTodo addTodoValidate
  rcases h with h | ⟨s, hs, ht⟩
  · rw [h]
  · rw [hs]
    simp [ht]

/-- C8 witness: adding `{text: "  "}` (whitespace-only) fails with the
validation error. -/
theorem add_empty_text_fails_witness :
    addTodo [] 1 { text := some "  ", priority := none, dueDate := none }
      = Except.error "Todo text is required and must be a non-empty string" :=
  add_empty_text_fails [] 1 _ (Or.inr ⟨"  ", rfl, by decide⟩)

/-- C9: in every state of the Manager's mirror, `getTodoCounts` satisfies
`all = active + completed`, `completed` counts the completed todos and
`active` counts the uncompleted ones.  The counts are a pure function of the
mirror, so the invariant holds after every mutation. -/
theorem todoCounts_invariant (todos : List CTodo) :
    (getTodoCounts todos).all = (getTodoCounts todos).active + (getTodoCounts todos).completed
    ∧ (getTodoCounts todos).completed = (todos.filter fun t => t.completed).length
    ∧ (getTodoCounts todos).active = (todos.filter fun t => !t.completed).length := by
  have hle := List.length_filter_le (fun t : CTodo => t.completed) todos
  have hsplit : todos.length = (todos.filter fun t => t.completed).length
      + (todos.filter fun t => !t.completed).length := by
    rw [← List.countP_eq_length_filter, ← List.countP_eq_length_filter]
    simpa using List.length_eq_countP_add_countP (p := fun t : CTodo => t.completed) todos
  refine ⟨?_, rfl, ?_⟩
  · simp only [getTodoCounts]
    omega
  · simp only [getTodoCounts]
    omega

/-- C10: `validateDate` sends every string not of the exact `YYYY-MM-DD`
form to `null`; consequently `addTodo` and `updateTodo` silently store no due
date for such an input (for example the combined date-time string
`"2024-01-01T10:00"` the UI builds). -/
theorem validateDate_nonFormat (s : String) (h : isDateFormat s = false) :
    validateDate (some s) = none
    ∧ addTodoValidate { text := some "Buy milk", priority := none, dueDate := some s }
        = Except.ok { text := "Buy milk", priority := "medium", dueDate := none }
    ∧ updateTodoValidate { text := none, priority := none, dueDate := some s, completed := none }
        = Except.ok { text := none, priority := none, dueDate := some none, completed := none } := by
  have hv : validateDate (some s) = none := by
    unfold validateDate
    by_cases hs : s = ""
    · simp [hs]
    · simp [hs, h]
  refine ⟨hv, ?_, ?_⟩
  · unfold addTodoValidate
    dsimp only
    rw [if_neg (by decide)]
    simp [validatePriority, hv]
    decide
  · unfold updateTodoValidate
    simp [hv]

/-- C10 witness: the UI's combined date-time string `"2024-01-01T10:00"` does
not match the date regex and is normalized to no due date. -/
theorem validateDate_nonFormat_witness :
    validateDate (some "2024-01-01T10:00") = none
    ∧ addTodoValidate ⟨some "Buy milk", none, some "2024-01-01T10:00"⟩
        = Except.ok { text := "Buy milk", priority := "medium", dueDate := none }
    ∧ updateTodoValidate ⟨none, none, some "2024-01-01T10:00", none⟩
        = Except.ok { text := none, priority := none, dueDate := some none, completed := none } :=
  validateDate_nonFormat "2024-01-01T10:00" (by decide)

/-! ### The server todo routes

`server/routes` (the todos router) over the `Todo` documents of
`server/models/Todo.js`.  A route is a function from the stored collection to
a response and the new collection; `userId` scoping models the `auth`
middleware's resolved user.  MongoDB's `_id` is modelled as `oid : Nat` and is
unique in a real collection; `save()` on a fetched document is modelled as
updating the matching documents in place. -/

structure STodo where
  oid : Nat
  userId : Nat
  text : String
  completed : Bool
  priority : String
  dueDate : Option String
deriving DecidableEq, Repr

/-- The query `{ _id: id, userId: req.user._id }` used by the todo routes. -/
def ownedBy (t : STodo) (id uid : Nat) : Bool :=
  t.oid = id && t.userId = uid

/-- The state change of `PATCH /api/todos/:id/toggle`: the owned document's
`completed` flag is flipped in place (`todo.completed = !todo.completed;
await todo.save()`); every other document is untouched. -/
def toggleCompleted (state : List STodo) (uid id : Nat) : List STodo :=
  state.map fun t => if ownedBy t id uid then { t with completed := !t.completed } else t

/-- Route `PATCH /api/todos/:id/toggle`: `findOne` the owned todo; absent → 404
(state unchanged); otherwise flip `completed` and save. -/
def toggleRoute (state : List STodo) (uid id : Nat) : Option STodo × List STodo :=
  match state.find? (fun t => ownedBy t id uid) with
  | none => (none, state)
  | some todo => (some { todo with completed := !todo.completed }, toggleCompleted state uid id)

/-- Route `POST /api/todos` after successful validation:
`new Todo({ text: text.trim(), priority, dueDate: dueDate || null, userId })`
is saved; `completed` defaults to `false` per the schema, and the store
assigns the fresh id `newId`. -/
def createTodo (state : List STodo) (uid newId : Nat) (text priority : String)
    (dueDate : Option String) : STodo × List STodo :=
  let todo : STodo := { oid := newId, userId := uid, text := jsTrim text,
                        completed := false, priority := priority, dueDate := dueDate }
  (todo, state ++ [todo])

/-- The outcome of `DELETE /api/todos/:id`. -/
inductive DeleteResult where
  | notFound
  | ok (todo : STodo)
deriving DecidableEq, Repr

/-- Route `DELETE /api/todos/:id`: `findOneAndDelete({ _id: id, userId })`; no match
→ 404 with the collection unchanged; otherwise the matched document is
removed. -/
def deleteRoute (state : List STodo) (uid id : Nat) : DeleteResult × List STodo :=
  match state.find? (fun t => ownedBy t id uid) with
  | none => (DeleteResult.notFound, state)
  | some todo => (DeleteResult.ok todo, state.eraseP (fun t => ownedBy t id uid))

/-- A `PUT /api/todos/:id` request body; `none` = the field is absent.
`completed` is already boolean-typed, so the `isBoolean()` validator never
fires on it. -/
structure PutBody where
  text : Option String
  priority : Option String
  completed : Option Bool
  dueDate : Option String
deriving Repr

/-- The express-validator chain of `PUT /api/todos/:id`.  The ISO-8601 check
on `dueDate` is the validator library's predicate, taken as the parameter
`isISO8601`. -/
def putValidationErrors (isISO8601 : String → Bool) (b : PutBody) : List String :=
  (match b.text with
   | none => []
   | some s =>
     (if s = "" then ["Todo text cannot be empty"] else [])
       ++ (if 200 < s.length then ["Todo text cannot exceed 200 characters"] else []))
  ++ (match b.priority with
      | none => []
      | some p => if validPriorities.contains p then [] else ["Priority must be high, medium, or low"])
  ++ (match b.dueDate with
      | none => []
      | some d => if isISO8601 d then [] else ["Due date must be a valid date"])

/-- The outcome of `PUT /api/todos/:id`. -/
inductive PutResult where
  | validationFailed (errors : List String)
  | notFound
  | ok (todo : STodo)
deriving DecidableEq, Repr

/-- The `$set: updates` merge of `findOneAndUpdate` with the body fields. -/
def applyPutBody (t : STodo) (b : PutBody) : STodo :=
  { t with
    text := b.text.getD t.text
    priority := b.priority.getD t.priority
    completed := b.completed.getD t.completed
    dueDate := match b.dueDate with | none => t.dueDate | some d => some d }

/-- Route `PUT /api/todos/:id`: validation errors → 400 with the collection
unchanged; no owned match → 404 with the collection unchanged; otherwise the
owned document is updated with the body fields. -/
def putRoute (isISO8601 : String → Bool) (state : List STodo) (uid id : Nat)
    (b : PutBody) : PutResult × List STodo :=
  if putValidationErrors isISO8601 b ≠ [] then
    (PutResult.validationFailed (putValidationErrors isISO8601 b), state)
  else
    match state.find? (fun t => ownedBy t id uid) with
    | none => (PutResult.notFound, state)
    | some todo =>
      (PutResult.ok (applyPutBody todo b),
       state.map fun t => if ownedBy t id uid then applyPutBody t b else t)

/-- Flipping the owned todo's `completed` flag twice restores the collection:
`ownedBy` does not read `completed`, so exactly the same documents are flipped
back. -/
theorem toggleCompleted_involution (s : List STodo) (u i : Nat) :
    toggleCompleted (toggleCompleted s u i) u i = s := by
  induction s with
  | nil => rfl
  | cons hd tl ih =>
    simp only [toggleCompleted, List.map_cons] at ih ⊢
    by_cases hcond : ownedBy hd i u = true
    · have hcond2 : ownedBy { hd with completed := !hd.completed } i u = true := hcond
      rw [if_pos hcond, if_pos hcond2]
      simp only [Bool.not_not]
      exact congrArg (List.cons hd) ih
    · rw [if_neg hcond, if_neg hcond]
      exact congrArg (List.cons hd) ih

/-- Sample stored todo document used in witnesses. -/
def stodoSample : STodo :=
  { oid := 5, userId := 9, text := "Buy milk", completed := false, priority := "high", dueDate := none }

/-- C6: a task created by `POST /api/todos` starts with `completed = false`
and the trimmed text; toggling its id twice restores the collection created by
`add` (so the task has its original `completed` value and original `text`),
and toggling is an involution on the `completed` field in every state. -/
theorem add_toggle_toggle (state : List STodo) (uid newId : Nat)
    (text priority : String) (dueDate : Option String)
    (hfresh : ∀ t ∈ state, t.oid ≠ newId) :
    toggleCompleted
        (toggleCompleted (createTodo state uid newId text priority dueDate).2 uid newId) uid newId
      = (createTodo state uid newId text priority dueDate).2
    ∧ ((createTodo state uid newId text priority dueDate).2.find? fun t => ownedBy t newId uid)
        = some (createTodo state uid newId text priority dueDate).1
    ∧ (createTodo state uid newId text priority dueDate).1.completed = false
    ∧ (createTodo state uid newId text priority dueDate).1.text = jsTrim text
    ∧ ∀ (s : List STodo) (u i : Nat), toggleCompleted (toggleCompleted s u i) u i = s := by
  refine ⟨toggleCompleted_involution _ _ _, ?_, rfl, rfl, toggleCompleted_involution⟩
  show (state ++ [_]).find? _ = _
  rw [List.find?_append]
  have h1 : state.find? (fun t => ownedBy t newId uid) = none :=
    List.find?_eq_none.mpr fun t ht => by simp [ownedBy, hfresh t ht]
  rw [h1]
  simp [ownedBy, createTodo]

/-- C6 witness: an empty collection, a fresh id, then toggle twice. -/
theorem add_toggle_toggle_witness :
    toggleCompleted (toggleCompleted (createTodo [] 9 1 "Buy milk" "high" none).2 9 1) 9 1
      = (createTodo [] 9 1 "Buy milk" "high" none).2
    ∧ ((createTodo [] 9 1 "Buy milk" "high" none).2.find? fun t => ownedBy t 1 9)
        = some (createTodo [] 9 1 "Buy milk" "high" none).1
    ∧ (createTodo [] 9 1 "Buy milk" "high" none).1.completed = false
    ∧ (createTodo [] 9 1 "Buy milk" "high" none).1.text = jsTrim "Buy milk"
    ∧ ∀ (s : List STodo) (u i : Nat), toggleCompleted (toggleCompleted s u i) u i = s :=
  add_toggle_toggle [] 9 1 "Buy milk" "high" none (by simp)

/-- C7: when no stored task matches `{ _id: id, userId: uid }`, the DELETE
route answers 404 (`NotFound`) and the collection is returned unchanged — no
task is added, removed or modified. -/
theorem delete_missing_notFound (state : List STodo) (uid id : Nat)
    (h : ∀ t ∈ state, ¬(t.oid = id ∧ t.userId = uid)) :
    deleteRoute state uid id = (DeleteResult.notFound, state) := by
  unfold deleteRoute
  rw [List.find?_eq_none.mpr fun t ht => by simpa [ownedBy] using h t ht]

/-- C7 witness: deleting id 7 from a collection whose only task has id 5. -/
theorem delete_missing_notFound_witness :
    deleteRoute [stodoSample] 9 7 = (DeleteResult.notFound, [stodoSample]) :=
  delete_missing_notFound [stodoSample] 9 7 (by decide)

/-- C3 amended: the server PUT route rejects an update whose `priority` is
outside {high, medium, low} with a 400 validation failure and leaves every
stored task unchanged, while the client Manager's `validatePriority` silently
normalizes such a priority to `"medium"` (see the counterexample). -/
theorem put_invalid_priority_rejected (isISO8601 : String → Bool) (state : List STodo)
    (uid id : Nat) (b : PutBody) (p : String)
    (hp : b.priority = some p) (hinv : validPriorities.contains p = false) :
    putRoute isISO8601 state uid id b
        = (PutResult.validationFailed (putValidationErrors isISO8601 b), state)
    ∧ putValidationErrors isISO8601 b ≠ []
    ∧ validatePriority (some p) = "medium" := by
  have hinv' : p ∉ validPriorities := by simpa using hinv
  have hmem : "Priority must be high, medium, or low" ∈ putValidationErrors isISO8601 b := by
    simp [putValidationErrors, hp]
    exact Or.inr (Or.inl hinv')
  have hne : putValidationErrors isISO8601 b ≠ [] := List.ne_nil_of_mem hmem
  refine ⟨?_, hne, ?_⟩
  · unfold putRoute
    rw [if_pos hne]
  · simp [validatePriority, hinv']

/-- The invalid-priority PUT body used in the C3 witness. -/
def putBodyUrgent : PutBody :=
  { text := none, priority := some "urgent", completed := none, dueDate := none }

/-- C3 amended witness: `priority: "urgent"` on a one-task collection. -/
theorem put_invalid_priority_rejected_witness :
    putRoute (fun _ => true) [stodoSample] 9 5 putBodyUrgent
        = (PutResult.validationFailed (putValidationErrors (fun _ => true) putBodyUrgent), [stodoSample])
    ∧ putValidationErrors (fun _ => true) putBodyUrgent ≠ []
    ∧ validatePriority (some "urgent") = "medium" :=
  put_invalid_priority_rejected (fun _ => true) [stodoSample] 9 5 putBodyUrgent "urgent" rfl (by decide)

end TodoApp
